import Mathlib

/-!
Shallow embedding of the HTTPBalanceGo load balancer and rate limiter.

The Go sources embedded here are `src/main.go` (package main: `LoadBalancer`,
`healthCheck`, `getNextBackend`, `ServeHTTP`) and
`src/ratelimiter/ratelimiter.go` (package ratelimiter: `TokenBucket`,
`NewTokenBucket`, `refill`, `Allow`, `RateLimiter`, `RateLimiter.Allow`).

Modelling conventions:
- A backend is its address string (Go holds a parsed `*url.URL`; the claims
  only need backend identity and order, which the URL string carries).
- Network effects are abstracted as function parameters: a health probe is a
  function `Backend → Option Nat` (`none` is a transport error, `some s` a
  response with status code `s`), and the reverse-proxy forward attempt is a
  function `Backend → Bool` (`false` means the proxy reported an error).
- `log.Fatal` terminates the Go process; it is modelled as an explicit
  `HCOutcome.fatal` outcome threaded out of `healthCheck`.
- `time.Time` is a nanosecond timestamp `Nat`; `time.Duration.Seconds()`
  truncated by Go `int(...)` is Nat floor division by 10^9. Go's monotonic
  clock makes elapsed time non-negative, matching Nat subtraction.
- Go `int` counters (tokens, capacity, rate) are `Int`; the values reachable
  under the claims stay far from the 64-bit boundary, so wrap-around is not
  modelled.
- The Go `map[string]*TokenBucket` is an association list; mutation of the
  pointed-to bucket by `bucket.Allow()` is modelled by writing the updated
  bucket back under its key.
-/

namespace HTTPBalance

abbrev Backend := String

/-- State of `LoadBalancer` from `src/main.go` (the `config`, `proxy`,
`mutex` and `client` fields carry no state the claims depend on: the model is
sequential and probing is a parameter). -/
structure LoadBalancer where
  backends : List Backend
  currentBackend : Nat
deriving Repr, DecidableEq

/-- Whether `healthCheck` survived: `fatal` models `log.Fatal`, which
terminates the Go process. -/
inductive HCOutcome
  | ok
  | fatal
deriving Repr, DecidableEq

/-- The health test from `healthCheck` in `src/main.go`:
`err != nil || resp.StatusCode != http.StatusOK` excludes the backend, so a
backend is kept exactly when the probe returned a response with status 200. -/
def probeHealthy (r : Option Nat) : Bool :=
  r == some 200

/-- Embeds `func (lb *LoadBalancer) healthCheck()` from `src/main.go`:
probe every backend of the current `lb.backends` list, keep those whose probe
succeeds with status 200, swap the survivors in, `log.Fatal` when none
survived, otherwise clamp the cursor to 0 when it is out of range. -/
def healthCheck (probe : Backend → Option Nat) (lb : LoadBalancer) :
    LoadBalancer × HCOutcome :=
  let healthyBackends := lb.backends.filter (fun b => probeHealthy (probe b))
  let lb1 : LoadBalancer := { lb with backends := healthyBackends }
  if lb1.backends.length = 0 then
    (lb1, .fatal)
  else if lb1.backends.length ≤ lb1.currentBackend then
    ({ lb1 with currentBackend := 0 }, .ok)
  else
    (lb1, .ok)

/-- Embeds `func NewLoadBalancer(config Config)` from `src/main.go`: parse
each configured address, skipping the malformed ones (`url.Parse` success is
abstracted as the predicate `parseOk`), then run the initial health check. -/
def newLoadBalancer (parseOk : String → Bool) (probe : Backend → Option Nat)
    (cfgBackends : List String) : LoadBalancer × HCOutcome :=
  healthCheck probe { backends := cfgBackends.filter parseOk, currentBackend := 0 }

/-- Embeds `func (lb *LoadBalancer) getNextBackend()` from `src/main.go`:
`nil` on an empty pool, otherwise return `backends[currentBackend]` and
advance the cursor modulo the pool length. The Go index expression is total
only under the cursor invariant; `getD` supplies a dummy value out of range. -/
def getNextBackend (lb : LoadBalancer) : Option Backend × LoadBalancer :=
  if lb.backends.length = 0 then
    (none, lb)
  else
    (some (lb.backends.getD lb.currentBackend ""),
     { lb with currentBackend := (lb.currentBackend + 1) % lb.backends.length })

/-- The user-visible outcome of one `ServeHTTP` call in `src/main.go`:
`serviceUnavailable` is the 503 "Service unavailable" reply, `okFrom b` is a
successful forward to backend `b`, `badGateway` is the 502 "Bad gateway"
reply from the proxy error handler, and `fatalExit` means the health check
triggered inside the error handler hit `log.Fatal` and the process
terminated before any reply was written. -/
inductive Response
  | serviceUnavailable
  | okFrom (b : Backend)
  | badGateway
  | fatalExit
deriving Repr, DecidableEq

/-- Embeds `func (lb *LoadBalancer) ServeHTTP(...)` from `src/main.go`:
pick the next backend (503 when none); forward to it; on a proxy error the
`ErrorHandler` runs `lb.healthCheck()` and then writes 502 — unless the
health check called `log.Fatal`, in which case the process exits first. -/
def serveHTTP (probe : Backend → Option Nat) (forward : Backend → Bool)
    (lb : LoadBalancer) : Response × LoadBalancer :=
  match getNextBackend lb with
  | (none, lb1) => (.serviceUnavailable, lb1)
  | (some b, lb1) =>
    if forward b then
      (.okFrom b, lb1)
    else
      match healthCheck probe lb1 with
      | (lb2, .fatal) => (.fatalExit, lb2)
      | (lb2, .ok) => (.badGateway, lb2)

/-- Results of `n` consecutive `getNextBackend` calls, with the final state. -/
def nextSeq : Nat → LoadBalancer → List (Option Backend) × LoadBalancer
  | 0, lb => ([], lb)
  | n + 1, lb =>
    let r := getNextBackend lb
    let s := nextSeq n r.2
    (r.1 :: s.1, s.2)

/-! ### Token bucket (`src/ratelimiter/ratelimiter.go`) -/

/-- Nanoseconds per second: `time.Duration` counts nanoseconds and
`Duration.Seconds()` divides by 10^9. -/
def nsPerSec : Nat := 1000000000

/-- State of `TokenBucket` from `src/ratelimiter/ratelimiter.go` (the mutex
carries no state in the sequential model). `lastRefill` is a nanosecond
timestamp. -/
structure TokenBucket where
  capacity : Int
  rate : Int
  tokens : Int
  lastRefill : Nat
deriving Repr, DecidableEq

/-- Embeds `func NewTokenBucket(capacity, rate int)`: the bucket starts full
(`tokens: capacity`) with `lastRefill: time.Now()`, passed as `now`. -/
def NewTokenBucket (capacity rate : Int) (now : Nat) : TokenBucket :=
  { capacity := capacity, rate := rate, tokens := capacity, lastRefill := now }

/-- Embeds `func (tb *TokenBucket) refill()`:
`tokensToAdd := int(elapsed.Seconds()) * tb.rate`; when positive, add it to
the count (overwriting with `capacity` when the sum exceeds it) and advance
`lastRefill` to `now`; otherwise leave the bucket untouched. -/
def TokenBucket.refill (tb : TokenBucket) (now : Nat) : TokenBucket :=
  let elapsedSec : Nat := (now - tb.lastRefill) / nsPerSec
  let tokensToAdd : Int := (elapsedSec : Int) * tb.rate
  if 0 < tokensToAdd then
    if tb.capacity < tb.tokens + tokensToAdd then
      { tb with tokens := tb.capacity, lastRefill := now }
    else
      { tb with tokens := tb.tokens + tokensToAdd, lastRefill := now }
  else
    tb

/-- Embeds `func (tb *TokenBucket) Allow() bool`: refill first, then admit
(decrementing) exactly when the refilled count is positive. -/
def TokenBucket.Allow (tb : TokenBucket) (now : Nat) : Bool × TokenBucket :=
  let tb1 := tb.refill now
  if 0 < tb1.tokens then
    (true, { tb1 with tokens := tb1.tokens - 1 })
  else
    (false, tb1)

/-! ### Rate limiter registry (`src/ratelimiter/ratelimiter.go`) -/

/-- State of `RateLimiter`: the Go `map[string]*TokenBucket` as an
association list with distinct keys maintained by `storeBucket`. -/
structure RateLimiter where
  buckets : List (String × TokenBucket)
deriving Repr, DecidableEq

/-- Embeds `func NewRateLimiter()`: an empty bucket map. -/
def NewRateLimiter : RateLimiter := { buckets := [] }

/-- The map read `bucket, exists := rl.buckets[clientID]`. -/
def RateLimiter.find (rl : RateLimiter) (clientID : String) : Option TokenBucket :=
  (rl.buckets.find? (fun p => p.1 == clientID)).map Prod.snd

/-- The map write `rl.buckets[clientID] = bucket`: replace the entry under
the key when present, otherwise append a new entry. -/
def storeBucket : List (String × TokenBucket) → String → TokenBucket →
    List (String × TokenBucket)
  | [], c, tb => [(c, tb)]
  | p :: ps, c, tb => if p.1 == c then (c, tb) :: ps else p :: storeBucket ps c tb

/-- Embeds `func (rl *RateLimiter) Allow(clientID string, capacity, rate int)`:
look up the client's bucket, create-and-store a fresh one from the given
`capacity`/`rate` when absent, and delegate to `bucket.Allow()`. In Go the
map holds a pointer mutated in place by `bucket.Allow()`; here the updated
bucket is written back under the key. The two `time.Now()` reads inside one
call (bucket creation and its refill) are the same instant `now`. -/
def RateLimiter.Allow (rl : RateLimiter) (clientID : String) (capacity rate : Int)
    (now : Nat) : Bool × RateLimiter :=
  match rl.find clientID with
  | some bucket =>
    let r := bucket.Allow now
    (r.1, { buckets := storeBucket rl.buckets clientID r.2 })
  | none =>
    let bucket := NewTokenBucket capacity rate now
    let r := bucket.Allow now
    (r.1, { buckets := storeBucket rl.buckets clientID r.2 })

/-! ### Shared helper lemmas -/

/-- `healthCheck` always installs the filtered list, in every branch. -/
theorem healthCheck_backends (probe : Backend → Option Nat) (lb : LoadBalancer) :
    (healthCheck probe lb).1.backends =
      lb.backends.filter (fun b => probeHealthy (probe b)) := by
  unfold healthCheck
  dsimp only
  split
  · rfl
  · split <;> rfl

/-- On a nonempty pool, `getNextBackend` returns the backend at the cursor
and advances the cursor modulo the pool length. -/
theorem getNextBackend_pos (l : List Backend) (c : Nat) (hl : 0 < l.length) :
    getNextBackend { backends := l, currentBackend := c } =
      (some (l.getD c ""), { backends := l, currentBackend := (c + 1) % l.length }) := by
  unfold getNextBackend
  simp only
  rw [if_neg (by omega)]

/-! ### Claim C1 -/

/-- Claim C1 (code_bug evidence): when every probe fails, `healthCheck` does
not leave an exhausted-but-running pool — it reaches `log.Fatal`
("All backends are unavailable"), i.e. outcome `fatal`, terminating the
process. The claim's required behavior (pool enters an exhausted state,
`Next()` returns none, the Dispatcher serves 503 and later health checks
can still run) is therefore unreachable in the code: evaluated at the
failing input, the swept pool is empty and the outcome is `fatal`. -/
theorem healthCheck_exhaustion_is_fatal :
    (healthCheck (fun _ => none)
        { backends := ["http://b1"], currentBackend := 0 }).2 = HCOutcome.fatal ∧
    (healthCheck (fun _ => none)
        { backends := ["http://b1"], currentBackend := 0 }).1.backends = [] := by
  constructor <;> rfl

/-! ### Claim C5 -/

/-- Claim C5: after `HealthCheck()` over given probe outcomes, the pool is
exactly the backends whose probe completed without transport error with
status 200, in original relative order (the pool equals the order-preserving
filter of the previous list); a transport error (`none`) and a non-200
status are excluded by the same test, with no other distinction. -/
theorem healthCheck_keeps_exactly_status200 (probe : Backend → Option Nat)
    (lb : LoadBalancer) :
    (healthCheck probe lb).1.backends =
      lb.backends.filter (fun b => probe b == some 200) ∧
    ∀ b : Backend, b ∈ (healthCheck probe lb).1.backends ↔
      b ∈ lb.backends ∧ probe b = some 200 := by
  refine ⟨healthCheck_backends probe lb, fun b => ?_⟩
  rw [healthCheck_backends probe lb, List.mem_filter]
  simp [probeHealthy]

/-! ### Claim C2 -/

/-- Claim C2 (counterexample): backend "B" is excluded by a first health
check (its probe answers 500), and at the next `HealthCheck()` every probe —
including "B"'s — would answer 200; yet "B" does not reappear: the second
sweep only probes the survivors `["A"]`, because `healthCheck` iterates over
`lb.backends`, which the first sweep overwrote with the healthy subset. -/
theorem healthCheck_no_reprobe_cex :
    ((healthCheck (fun b => if b = "B" then some 500 else some 200)
        { backends := ["A", "B"], currentBackend := 0 }).1.backends = ["A"]) ∧
    ((healthCheck (fun _ => some 200)
        (healthCheck (fun b => if b = "B" then some 500 else some 200)
          { backends := ["A", "B"], currentBackend := 0 }).1).1.backends = ["A"]) ∧
    "B" ∉ ((healthCheck (fun _ => some 200)
        (healthCheck (fun b => if b = "B" then some 500 else some 200)
          { backends := ["A", "B"], currentBackend := 0 }).1).1.backends) := by
  refine ⟨rfl, rfl, ?_⟩
  decide

/-- Claim C2 (amended): every run of `healthCheck` probes only the backends
of the current pool list (the survivors of the previous run), never the full
configured set: the pool can only shrink, and a backend absent from the
current pool — in particular one excluded in an earlier generation — never
reappears, even when its probe would answer status 200. -/
theorem healthCheck_pool_only_shrinks :
    (∀ (probe : Backend → Option Nat) (lb : LoadBalancer),
      ((healthCheck probe lb).1.backends).Sublist lb.backends) ∧
    (∀ (probe : Backend → Option Nat) (lb : LoadBalancer) (b : Backend),
      b ∉ lb.backends → b ∉ (healthCheck probe lb).1.backends) := by
  constructor
  · intro probe lb
    rw [healthCheck_backends]
    exact List.filter_sublist _
  · intro probe lb b hb hmem
    rw [healthCheck_backends] at hmem
    exact hb (List.mem_filter.mp hmem).1

/-- Witness for the amended C2 at a concrete input. -/
theorem healthCheck_pool_only_shrinks_witness :
    "X" ∉ (["A"] : List Backend) ∧
    "X" ∉ (healthCheck (fun _ => some 200)
        { backends := ["A"], currentBackend := 0 }).1.backends :=
  ⟨by decide, healthCheck_pool_only_shrinks.2 (fun _ => some 200)
    { backends := ["A"], currentBackend := 0 } "X" (by decide)⟩

/-! ### Claim C8 -/

/-- The pool invariant: the rotation cursor is in range whenever the pool is
nonempty. -/
def cursorInv (lb : LoadBalancer) : Prop :=
  0 < lb.backends.length → lb.currentBackend < lb.backends.length

/-- `getNextBackend` leaves the cursor in range (it advances modulo the
length). -/
theorem cursorInv_getNextBackend (lb : LoadBalancer) :
    cursorInv (getNextBackend lb).2 := by
  unfold getNextBackend cursorInv
  split
  · dsimp only
    intro h
    omega
  · dsimp only
    intro h
    exact Nat.mod_lt _ h

/-- `healthCheck` leaves the cursor in range (it clamps an out-of-range
cursor to 0 after the swap). -/
theorem cursorInv_healthCheck (probe : Backend → Option Nat) (lb : LoadBalancer) :
    cursorInv (healthCheck probe lb).1 := by
  unfold healthCheck cursorInv
  dsimp only
  split
  · dsimp only
    intro h
    omega
  · split
    · dsimp only
      intro h
      exact h
    · dsimp only
      intro h
      omega

/-- `serveHTTP` leaves the cursor in range: its final state comes from
`getNextBackend`, possibly followed by `healthCheck`. -/
theorem cursorInv_serveHTTP (probe : Backend → Option Nat) (forward : Backend → Bool)
    (lb : LoadBalancer) : cursorInv (serveHTTP probe forward lb).2 := by
  have hnext := cursorInv_getNextBackend lb
  unfold serveHTTP
  rcases h : getNextBackend lb with ⟨ob, lb1⟩
  rw [h] at hnext
  cases ob with
  | none => exact hnext
  | some b =>
    dsimp only
    split
    · exact hnext
    · have hhc := cursorInv_healthCheck probe lb1
      rcases h2 : healthCheck probe lb1 with ⟨lb2, oc⟩
      rw [h2] at hhc
      cases oc
      · exact hhc
      · exact hhc

/-- One pool-mutating operation of `src/main.go`: a `getNextBackend` call, a
`healthCheck` run, or a full `ServeHTTP` request. -/
inductive PoolStep : LoadBalancer → LoadBalancer → Prop
  | next (lb : LoadBalancer) : PoolStep lb (getNextBackend lb).2
  | check (probe : Backend → Option Nat) (lb : LoadBalancer) :
      PoolStep lb (healthCheck probe lb).1
  | serve (probe : Backend → Option Nat) (forward : Backend → Bool)
      (lb : LoadBalancer) : PoolStep lb (serveHTTP probe forward lb).2

/-- Claim C8: in every state reachable from construction
(`NewLoadBalancer`, which starts the cursor at 0 and runs the initial health
check) by any sequence of `Next()` calls, health checks and served requests,
the cursor lies in `[0, length)` whenever `length > 0` (the lower bound is
inherent in the `Nat` cursor): `Next()` advances the cursor modulo the list
length, and the swap phase of `healthCheck` clamps an out-of-range cursor
back to 0 after replacing the list. -/
theorem pool_cursor_inv_reachable (parseOk : String → Bool)
    (probe0 : Backend → Option Nat) (cfgBackends : List String) (lb : LoadBalancer)
    (h : Relation.ReflTransGen PoolStep (newLoadBalancer parseOk probe0 cfgBackends).1 lb) :
    cursorInv lb := by
  induction h with
  | refl => exact cursorInv_healthCheck probe0 _
  | tail hsteps hstep ih =>
    cases hstep with
    | next _ => exact cursorInv_getNextBackend _
    | check probe _ => exact cursorInv_healthCheck probe _
    | serve probe forward _ => exact cursorInv_serveHTTP probe forward _

/-- Witness for C8 at a concrete construction. -/
theorem pool_cursor_inv_reachable_witness :
    cursorInv (newLoadBalancer (fun _ => true) (fun _ => some 200) ["http://a"]).1 :=
  pool_cursor_inv_reachable (fun _ => true) (fun _ => some 200) ["http://a"] _
    Relation.ReflTransGen.refl

/-! ### Claim C3 -/

/-- Closed form of `n` consecutive `getNextBackend` calls on a nonempty pool
with an in-range cursor: the i-th result is the backend at index
`(c + i) mod K` and the final cursor is `(c + n) mod K`. -/
theorem nextSeq_formula (l : List Backend) (hl : 0 < l.length) (n : Nat) :
    ∀ c : Nat, c < l.length →
      nextSeq n { backends := l, currentBackend := c } =
        ((List.range n).map (fun i => some (l.getD ((c + i) % l.length) "")),
         { backends := l, currentBackend := (c + n) % l.length }) := by
  induction n with
  | zero =>
    intro c hc
    simp [nextSeq, Nat.mod_eq_of_lt hc]
  | succ n ih =>
    intro c hc
    have hc1 : (c + 1) % l.length < l.length := Nat.mod_lt _ hl
    simp only [nextSeq, getNextBackend_pos l c hl, ih ((c + 1) % l.length) hc1,
      Prod.mk.injEq, LoadBalancer.mk.injEq, true_and, and_true]
    refine ⟨?_, ?_⟩
    · rw [List.range_succ_eq_map, List.map_cons, List.map_map]
      have hfun : ((fun i => some (l.getD ((c + i) % l.length) "")) ∘ Nat.succ)
          = fun i => some (l.getD (((c + 1) % l.length + i) % l.length) "") := by
        funext i
        simp only [Function.comp_apply, Nat.mod_add_mod]
        rw [show c + 1 + i = c + Nat.succ i from by omega]
      rw [hfun]
      simp [Nat.mod_eq_of_lt hc]
    · rw [Nat.mod_add_mod, show c + 1 + n = c + (n + 1) from by omega]

/-- Splitting a run of `getNextBackend` calls at an intermediate state. -/
theorem nextSeq_add (m n : Nat) (lb : LoadBalancer) :
    nextSeq (m + n) lb =
      ((nextSeq m lb).1 ++ (nextSeq n (nextSeq m lb).2).1,
       (nextSeq n (nextSeq m lb).2).2) := by
  induction m generalizing lb with
  | zero => simp [nextSeq]
  | succ m ih =>
    rw [show m + 1 + n = (m + n) + 1 by omega]
    simp only [nextSeq, ih, List.cons_append]

/-- Claim C3: on a pool of `K` backends with in-range cursor `c`, `K`
consecutive `Next()` calls (no intervening health-check swap) return each
backend exactly once — the result list is the pool in list order starting
from the cursor (`drop c ++ take c`), a permutation of the pool — and the
state returns to its starting point, so the sequence then repeats; in
particular for pool `[A, B, C]` starting at the head, any `3k` consecutive
calls yield `[A, B, C]` repeated `k` times. -/
theorem roundRobin_cycle :
    (∀ (l : List Backend) (c : Nat), 0 < l.length → c < l.length →
      (nextSeq l.length { backends := l, currentBackend := c }).1
          = (l.drop c ++ l.take c).map some ∧
      (l.drop c ++ l.take c).Perm l ∧
      (nextSeq l.length { backends := l, currentBackend := c }).2
          = { backends := l, currentBackend := c }) ∧
    (∀ (bA bB bC : Backend) (k : Nat),
      (nextSeq (3 * k) { backends := [bA, bB, bC], currentBackend := 0 }).1
          = (List.replicate k [some bA, some bB, some bC]).flatten ∧
      (nextSeq (3 * k) { backends := [bA, bB, bC], currentBackend := 0 }).2
          = { backends := [bA, bB, bC], currentBackend := 0 }) := by
  constructor
  · intro l c hl hc
    have hform := nextSeq_formula l hl l.length c hc
    have hrot : l.rotate c = l.drop c ++ l.take c :=
      List.rotate_eq_drop_append_take (Nat.le_of_lt hc)
    refine ⟨?_, hrot ▸ List.rotate_perm l c, ?_⟩
    · rw [hform, ← hrot]
      refine List.ext_getElem ?_ ?_
      · simp
      · intro i h1 h2
        have hi : i < l.length := by simpa using h1
        have hmod : (c + i) % l.length < l.length := Nat.mod_lt _ hl
        have hcomm : (c + i) % l.length = (i + c) % l.length := by
          rw [Nat.add_comm]
        simp only [List.getElem_map, List.getElem_range]
        rw [List.getD_eq_getElem l "" hmod]
        simp only [List.getElem_rotate, hcomm]
    · rw [hform]
      simp [Nat.add_mod_right, Nat.mod_eq_of_lt hc]
  · intro bA bB bC k
    induction k with
    | zero => exact ⟨rfl, rfl⟩
    | succ k ih =>
      have h3 : nextSeq 3 { backends := [bA, bB, bC], currentBackend := 0 }
          = ([some bA, some bB, some bC],
             { backends := [bA, bB, bC], currentBackend := 0 }) := by
        simp [nextSeq, getNextBackend, List.getD]
      rw [show 3 * (k + 1) = 3 + 3 * k by ring, nextSeq_add, h3]
      rw [List.replicate_succ, List.flatten_cons]
      exact ⟨by rw [ih.1], by rw [ih.2]⟩

/-- Witness for C3 at a concrete pool and cursor. -/
theorem roundRobin_cycle_witness :
    0 < (["x", "y"] : List Backend).length ∧ 1 < (["x", "y"] : List Backend).length ∧
    ((nextSeq (["x", "y"] : List Backend).length
        { backends := ["x", "y"], currentBackend := 1 }).1
          = ((["x", "y"] : List Backend).drop 1 ++ (["x", "y"] : List Backend).take 1).map some ∧
      ((["x", "y"] : List Backend).drop 1 ++ (["x", "y"] : List Backend).take 1).Perm ["x", "y"] ∧
      (nextSeq (["x", "y"] : List Backend).length
        { backends := ["x", "y"], currentBackend := 1 }).2
          = { backends := ["x", "y"], currentBackend := 1 }) :=
  ⟨by decide, by decide, roundRobin_cycle.1 ["x", "y"] 1 (by decide) (by decide)⟩

/-! ### Token bucket helper lemmas -/

/-- `refill` never changes the bucket's capacity or rate. -/
theorem refill_fields (tb : TokenBucket) (now : Nat) :
    (tb.refill now).capacity = tb.capacity ∧ (tb.refill now).rate = tb.rate := by
  unfold TokenBucket.refill
  dsimp only
  split_ifs <;> exact ⟨rfl, rfl⟩

/-- `Allow` never changes the bucket's capacity or rate. -/
theorem allow_fields (tb : TokenBucket) (now : Nat) :
    ((tb.Allow now).2).capacity = tb.capacity ∧ ((tb.Allow now).2).rate = tb.rate := by
  rcases refill_fields tb now with ⟨h1, h2⟩
  unfold TokenBucket.Allow
  dsimp only
  split
  · exact ⟨h1, h2⟩
  · exact ⟨h1, h2⟩

/-! ### Claim C4 -/

/-- Claim C4: `Allow()` refills first and then decides. The refill adds
`floor(elapsed nanoseconds / 10^9) * rate` tokens — the whole elapsed
seconds times the rate — capping the count at capacity (`min`), and the
last-refill timestamp advances to `now` exactly when at least one token was
computed, so sub-second elapsed time never advances the timestamp. The call
returns admitted with the post-refill count decremented by one iff that
count is positive, and otherwise returns denied with the count unchanged. -/
theorem tokenBucket_allow_spec (tb : TokenBucket) (now : Nat) :
    ((tb.Allow now).1 = decide (0 < (tb.refill now).tokens)) ∧
    ((tb.refill now).tokens =
      if 0 < (((now - tb.lastRefill) / nsPerSec : Nat) : Int) * tb.rate then
        min (tb.tokens + (((now - tb.lastRefill) / nsPerSec : Nat) : Int) * tb.rate)
          tb.capacity
      else tb.tokens) ∧
    ((tb.refill now).lastRefill =
      if 0 < (((now - tb.lastRefill) / nsPerSec : Nat) : Int) * tb.rate then now
      else tb.lastRefill) ∧
    ((tb.Allow now).2 =
      { capacity := tb.capacity, rate := tb.rate,
        tokens := if 0 < (tb.refill now).tokens then (tb.refill now).tokens - 1
                  else (tb.refill now).tokens,
        lastRefill := (tb.refill now).lastRefill }) := by
  rcases refill_fields tb now with ⟨hcap, hrate⟩
  refine ⟨?_, ?_, ?_, ?_⟩
  · unfold TokenBucket.Allow
    dsimp only
    split
    next h => simp [h]
    next h => simp [h]
  · conv_lhs => unfold TokenBucket.refill
    dsimp only
    split_ifs <;> first | omega | (dsimp only; omega)
  · conv_lhs => unfold TokenBucket.refill
    dsimp only
    split_ifs <;> rfl
  · unfold TokenBucket.Allow
    dsimp only
    rcases hr : tb.refill now with ⟨cap0, r0, t0, l0⟩
    rw [hr] at hcap hrate
    dsimp only at hcap hrate
    dsimp only
    split_ifs <;> simp [hcap, hrate]

/-! ### Claim C7 -/

/-- The bucket invariant: the token count stays within `[0, capacity]`. -/
def TokenBucket.Inv (tb : TokenBucket) : Prop :=
  0 ≤ tb.tokens ∧ tb.tokens ≤ tb.capacity

/-- `refill` preserves the bucket invariant: the added amount is only
applied when positive, and the sum is clamped to capacity. -/
theorem refill_inv (tb : TokenBucket) (now : Nat) (h : tb.Inv) :
    (tb.refill now).Inv := by
  unfold TokenBucket.Inv at h ⊢
  unfold TokenBucket.refill
  dsimp only
  split_ifs <;> first | omega | (dsimp only; omega)

/-- `Allow` preserves the bucket invariant: it decrements only a positive
post-refill count. -/
theorem allow_inv (tb : TokenBucket) (now : Nat) (h : tb.Inv) :
    ((tb.Allow now).2).Inv := by
  have h1 := refill_inv tb now h
  unfold TokenBucket.Inv at h1 ⊢
  unfold TokenBucket.Allow
  dsimp only
  split
  next hpos => first | omega | (dsimp only; omega)
  next hpos => first | omega | (dsimp only; omega)

/-- Claim C7: a bucket created with positive capacity (and positive rate)
satisfies `0 ≤ tokens ≤ capacity`, and every `Allow()` call — at any moment
in time — preserves that invariant; the count never exceeds capacity
because the refill clamps to `min(count + added, capacity)`. -/
theorem tokenBucket_inv :
    (∀ (capacity rate : Int) (now : Nat), 0 < capacity → 0 < rate →
      (NewTokenBucket capacity rate now).Inv) ∧
    (∀ (tb : TokenBucket) (now : Nat), tb.Inv → ((tb.Allow now).2).Inv) := by
  constructor
  · intro capacity rate now hcap hrate
    exact ⟨le_of_lt hcap, le_refl _⟩
  · intro tb now h
    exact allow_inv tb now h

/-- Witness for C7 at a concrete bucket and call time. -/
theorem tokenBucket_inv_witness :
    (0 : Int) < 10 ∧ (0 : Int) < 1 ∧ (NewTokenBucket 10 1 0).Inv ∧
    (((NewTokenBucket 10 1 0).Allow (5 * nsPerSec)).2).Inv :=
  ⟨by decide, by decide, tokenBucket_inv.1 10 1 0 (by decide) (by decide),
   tokenBucket_inv.2 (NewTokenBucket 10 1 0) (5 * nsPerSec)
     (tokenBucket_inv.1 10 1 0 (by decide) (by decide))⟩

/-! ### Rate limiter helper lemmas -/

/-- Looking up the key just written by `storeBucket` yields the new entry. -/
theorem find_storeBucket (l : List (String × TokenBucket)) (c : String)
    (tb : TokenBucket) :
    List.find? (fun p => p.1 == c) (storeBucket l c tb) = some (c, tb) := by
  induction l with
  | nil => simp [storeBucket]
  | cons p ps ih =>
    unfold storeBucket
    split
    next h => simp [List.find?]
    next h =>
      have hb : (p.1 == c) = false := by simpa using h
      simp [List.find?, hb, ih]

/-! ### Claim C6 -/

/-- Claim C6: `RateLimiter.Allow(clientID, capacity, rate)` creates and
stores a bucket with the given capacity and rate when none exists for the
client (the stored bucket is the fresh full bucket after its own first
`Allow()`), and when a bucket already exists it delegates to that bucket's
`Allow()` — the stored bucket keeps its own capacity and rate, and the
capacity/rate arguments have no effect at all on the call's result. -/
theorem rateLimiter_get_or_create :
    (∀ (rl : RateLimiter) (clientID : String) (capacity rate : Int) (now : Nat),
      rl.find clientID = none →
      (rl.Allow clientID capacity rate now).1
          = ((NewTokenBucket capacity rate now).Allow now).1 ∧
      ((rl.Allow clientID capacity rate now).2).find clientID
          = some ((NewTokenBucket capacity rate now).Allow now).2) ∧
    (∀ (rl : RateLimiter) (clientID : String) (b : TokenBucket)
        (capacity rate capacity2 rate2 : Int) (now : Nat),
      rl.find clientID = some b →
      (rl.Allow clientID capacity rate now).1 = (b.Allow now).1 ∧
      ((rl.Allow clientID capacity rate now).2).find clientID
          = some ((b.Allow now).2) ∧
      ((b.Allow now).2).capacity = b.capacity ∧ ((b.Allow now).2).rate = b.rate ∧
      rl.Allow clientID capacity rate now = rl.Allow clientID capacity2 rate2 now) := by
  constructor
  · intro rl clientID capacity rate now h
    unfold RateLimiter.Allow
    rw [h]
    dsimp only
    refine ⟨rfl, ?_⟩
    unfold RateLimiter.find
    dsimp only
    rw [find_storeBucket]
    rfl
  · intro rl clientID b capacity rate capacity2 rate2 now h
    unfold RateLimiter.Allow
    rw [h]
    dsimp only
    refine ⟨rfl, ?_, (allow_fields b now).1, (allow_fields b now).2, rfl⟩
    unfold RateLimiter.find
    dsimp only
    rw [find_storeBucket]
    rfl

/-- Witness for C6 at a concrete registry. -/
theorem rateLimiter_get_or_create_witness :
    NewRateLimiter.find "bob" = none ∧
    ((NewRateLimiter.Allow "bob" 10 1 0).1 = ((NewTokenBucket 10 1 0).Allow 0).1 ∧
     ((NewRateLimiter.Allow "bob" 10 1 0).2).find "bob"
        = some ((NewTokenBucket 10 1 0).Allow 0).2) :=
  ⟨rfl, rateLimiter_get_or_create.1 NewRateLimiter "bob" 10 1 0 rfl⟩

/-! ### Claim C10 -/

/-- Claim C10: the first `RateLimiter.Allow` call for a client absent from
the registry, with capacity at least 1, is admitted: the fresh bucket starts
full (`tokens = capacity ≥ 1`) and the admission check follows immediately,
with zero elapsed time adding nothing. -/
theorem first_allow_admitted (rl : RateLimiter) (clientID : String)
    (capacity rate : Int) (now : Nat) (habsent : rl.find clientID = none)
    (hcap : 1 ≤ capacity) :
    (rl.Allow clientID capacity rate now).1 = true := by
  unfold RateLimiter.Allow
  rw [habsent]
  dsimp only
  unfold TokenBucket.Allow TokenBucket.refill NewTokenBucket
  simp only [Nat.sub_self, Nat.zero_div, Nat.cast_zero, zero_mul, lt_self_iff_false,
    if_false]
  rw [if_pos (by omega : (0 : Int) < capacity)]

/-- Witness for C10 at a concrete registry and client. -/
theorem first_allow_admitted_witness :
    NewRateLimiter.find "alice" = none ∧ (1 : Int) ≤ 10 ∧
    (NewRateLimiter.Allow "alice" 10 1 0).1 = true :=
  ⟨rfl, by decide, first_allow_admitted NewRateLimiter "alice" 10 1 0 rfl (by decide)⟩

/-! ### Claim C9 -/

/-- Claim C9 (counterexample): for pool `["http://a"]`, when the forward to
the chosen backend fails and its probe also fails, the triggered health
check finds no healthy backend and hits `log.Fatal`: the process terminates
without writing any reply, so the request does NOT get bad-gateway — the
claim's unconditional "then responds bad-gateway" fails at this input. -/
theorem serve_forward_failure_cex :
    (serveHTTP (fun _ => none) (fun _ => false)
        { backends := ["http://a"], currentBackend := 0 }).1 = Response.fatalExit ∧
    (serveHTTP (fun _ => none) (fun _ => false)
        { backends := ["http://a"], currentBackend := 0 }).1 ≠ Response.badGateway := by
  refine ⟨rfl, ?_⟩
  decide

/-- Claim C9 (amended): whenever the forwarding collaborator reports a
failure for the chosen backend, the Dispatcher runs `healthCheck`
synchronously — the request's final pool state is the health-checked one —
and, provided that health check leaves at least one healthy backend (its
outcome is `ok`; otherwise the process terminates on `log.Fatal`), it then
responds bad-gateway. In particular for pool `[A, B]` with A failing its
forward and its subsequent probe while B probes healthy, the request gets
bad-gateway and the next `Next()` call returns B, not A. -/
theorem serve_forward_failure_checks_then_502 :
    (∀ (probe : Backend → Option Nat) (forward : Backend → Bool)
        (lb lb1 : LoadBalancer) (b : Backend),
      getNextBackend lb = (some b, lb1) → forward b = false →
      (serveHTTP probe forward lb).2 = (healthCheck probe lb1).1 ∧
      ((healthCheck probe lb1).2 = HCOutcome.ok →
        (serveHTTP probe forward lb).1 = Response.badGateway)) ∧
    ((serveHTTP (fun b => if b = "http://b" then some 200 else none) (fun _ => false)
        { backends := ["http://a", "http://b"], currentBackend := 0 }).1
          = Response.badGateway ∧
     (getNextBackend (serveHTTP (fun b => if b = "http://b" then some 200 else none)
        (fun _ => false)
        { backends := ["http://a", "http://b"], currentBackend := 0 }).2).1
          = some "http://b") := by
  constructor
  · intro probe forward lb lb1 b hnext hfwd
    unfold serveHTTP
    rw [hnext]
    dsimp only
    rw [hfwd, if_neg (by simp)]
    rcases h2 : healthCheck probe lb1 with ⟨lb2, oc⟩
    cases oc
    · exact ⟨rfl, fun _ => rfl⟩
    · refine ⟨rfl, fun hok => ?_⟩
      simp at hok
  · constructor
    · decide
    · decide

/-- Witness for the amended C9 at a concrete pool. -/
theorem serve_forward_failure_checks_then_502_witness :
    getNextBackend { backends := ["u"], currentBackend := 0 }
        = (some "u", { backends := ["u"], currentBackend := 0 }) ∧
    ((fun _ => false) : Backend → Bool) "u" = false ∧
    ((serveHTTP (fun _ => some 200) (fun _ => false)
        { backends := ["u"], currentBackend := 0 }).2
      = (healthCheck (fun _ => some 200) { backends := ["u"], currentBackend := 0 }).1 ∧
     ((healthCheck (fun _ => some 200) { backends := ["u"], currentBackend := 0 }).2
          = HCOutcome.ok →
      (serveHTTP (fun _ => some 200) (fun _ => false)
          { backends := ["u"], currentBackend := 0 }).1 = Response.badGateway)) :=
  ⟨rfl, rfl,
   serve_forward_failure_checks_then_502.1 (fun _ => some 200) (fun _ => false)
     { backends := ["u"], currentBackend := 0 }
     { backends := ["u"], currentBackend := 0 } "u" rfl rfl⟩

end HTTPBalance
